import Mathlib

/-!
Shallow embedding of `wildfire_retrieve.py` (class `WildfireTiggeDataRetriever`).

Conventions of the embedding:
* Python `datetime.date` values are `Date` records of naturals; comparison of
  dates is the lexicographic tuple order Python uses, and `timedelta(days=1)`
  addition is `nextDay`, following the Gregorian calendar.
* The filesystem is a read-only map `fs : String → Option Nat` giving, for a
  path, `some size` when `os.path.isfile` is true and the file has that size,
  and `none` when the path is not a file.
* The ECMWF server (`ecmwfapi.ECMWFDataServer`) is an external collaborator;
  `get_data` is modelled as a pure function returning either the skip message
  or the server invocation it performs (URL, key, and request dictionary).
  The effectful variant `get_data_exec` additionally takes the client's
  behaviour as a function returning `Except` and propagates its failure, which
  is what `__get_data_wrapper__` catches.
* The `while current_date <= end_date` loop of `bulk_download` is embedded by
  a fuel-indexed recursion; the fuel `dateFuel` is an explicit bound on the
  number of iterations, and `enumDates_eq` / `buildArgs_eq` prove that the
  definitions satisfy exactly the loop's unfolding equation, so no truncation
  occurs.
-/

namespace Wildfire

/-- A calendar date, as Python's `datetime.date` (year, month, day). -/
structure Date where
  year : Nat
  month : Nat
  day : Nat
deriving DecidableEq, Repr

/-- Python date comparison `d1 <= d2`: lexicographic on (year, month, day). -/
def dateLe (a b : Date) : Bool :=
  decide (a.year < b.year ∨ (a.year = b.year ∧
    (a.month < b.month ∨ (a.month = b.month ∧ a.day ≤ b.day))))

/-- Python date comparison `d1 < d2`: lexicographic on (year, month, day). -/
def dateLt (a b : Date) : Bool :=
  decide (a.year < b.year ∨ (a.year = b.year ∧
    (a.month < b.month ∨ (a.month = b.month ∧ a.day < b.day))))

/-- Gregorian leap-year rule, as used by Python's `datetime`. -/
def isLeap (y : Nat) : Bool :=
  y % 4 == 0 && (y % 100 != 0 || y % 400 == 0)

/-- Number of days in a month of a given year (Gregorian). -/
def daysInMonth (y m : Nat) : Nat :=
  if m = 2 then (if isLeap y then 29 else 28)
  else if m = 4 ∨ m = 6 ∨ m = 9 ∨ m = 11 then 30
  else 31

/-- `d + timedelta(days=1)` for a valid date `d`. -/
def nextDay (d : Date) : Date :=
  if d.day < daysInMonth d.year d.month then ⟨d.year, d.month, d.day + 1⟩
  else if d.month < 12 then ⟨d.year, d.month + 1, 1⟩
  else ⟨d.year + 1, 1, 1⟩

/-- Fuel bound for the date loop: strictly decreases along `nextDay` while
`dateLe cur e` holds, so it bounds the number of loop iterations. -/
def dateFuel (cur e : Date) : Nat :=
  (e.year + 1 - cur.year) * 500 + (12 - cur.month) * 40 + (32 - cur.day)

lemma daysInMonth_le (y m : Nat) : daysInMonth y m ≤ 31 := by
  unfold daysInMonth
  split
  · split <;> omega
  · split <;> omega

lemma dateLe_year {a b : Date} (h : dateLe a b = true) : a.year ≤ b.year := by
  simp only [dateLe, decide_eq_true_eq] at h
  omega

lemma dateFuel_pos {cur e : Date} (h : dateLe cur e = true) :
    1 ≤ dateFuel cur e := by
  have := dateLe_year h
  unfold dateFuel
  have h500 : 1 ≤ e.year + 1 - cur.year := by omega
  nlinarith

lemma dateFuel_decr {cur e : Date} (h : dateLe cur e = true) :
    dateFuel (nextDay cur) e < dateFuel cur e := by
  have hy := dateLe_year h
  have hdim := daysInMonth_le cur.year cur.month
  unfold nextDay
  split
  · unfold dateFuel
    simp only
    omega
  · split
    · unfold dateFuel
      simp only
      omega
    · unfold dateFuel
      simp only
      omega

/-- An ECMWF API key, as supplied to the constructor: a pair of the API key
string and the associated email address. -/
abbrev Key := String × String

/-- `WildfireTiggeDataRetriever.start_date`: the first available date in
TIGGE. -/
def start_date : Date := ⟨2007, 3, 5⟩

/-- `WildfireTiggeDataRetriever.missing_dates`: dates not available in the
archive. -/
def missing_dates : List (Nat × Nat × Nat) :=
  [(2015, 12, 3), (2015, 12, 10), (2015, 12, 16), (2015, 12, 17), (2015, 12, 18),
   (2015, 12, 19), (2016, 6, 24), (2016, 6, 28), (2016, 6, 29), (2016, 6, 30),
   (2016, 7, 1), (2016, 7, 2), (2016, 7, 3), (2016, 8, 6), (2016, 8, 10),
   (2016, 8, 23), (2016, 8, 24), (2016, 8, 25), (2016, 8, 28)]

/-- `WildfireTiggeDataRetriever.minimal_vars`: parameter IDs of the reduced
variable set. -/
def minimal_vars : String := "165/166/167/168/228228"

/-- `WildfireTiggeDataRetriever.all_vars`: parameter IDs of the full variable
set. -/
def all_vars : String :=
  "59/134/136/146/147/151/165/166/167/168/172/176/177/179/235/228001/228039/228139/228144/228228"

/-- The fixed `step` entry of the request dictionary. -/
def step_list : String :=
  "0/6/12/18/24/30/36/42/48/54/60/66/72/78/84/90/96/102/108/114/120/126/132/138/144/150/156/162/168/174/180/186/192/198/204/210/216/222/228/234/240"

/-- Python `"%02i" % n` for a natural number. -/
def pad2 (n : Nat) : String :=
  if n < 10 then "0" ++ toString n else toString n

/-- Python `"%04i" % n` for a natural number. -/
def pad4 (n : Nat) : String :=
  if n < 10 then "000" ++ toString n
  else if n < 100 then "00" ++ toString n
  else if n < 1000 then "0" ++ toString n
  else toString n

/-- `__format_date__(year, month, day)`: `"%04i-%02i-%02i"`. -/
def __format_date__ (year month day : Nat) : String :=
  pad4 year ++ "-" ++ pad2 month ++ "-" ++ pad2 day

/-- `__format_time__(hour)`: `"%02i:00:00"`. -/
def __format_time__ (hour : Nat) : String :=
  pad2 hour ++ ":00:00"

/-- `_get_filename(self, year, month, day, hour, reduced_set)`; `path` is
`self.path` (normalised by the constructor to end in a slash). -/
def _get_filename (path : String) (year month day hour : Nat)
    (reduced_set : Bool) : String :=
  let filename := path ++ __format_date__ year month day
    ++ "T" ++ pad2 hour ++ "-wildfire"
  if reduced_set then filename ++ "-reduced.nc" else filename ++ ".nc"

/-- A filesystem snapshot: `some size` when the path is a regular file of the
given size, `none` when `os.path.isfile` is false. -/
def FS := String → Option Nat

/-- `need_to_download(self, year, month, day, hour, reduced_set)`. -/
def need_to_download (fs : FS) (path : String) (year month day hour : Nat)
    (reduced_set : Bool) : Bool :=
  if (year, month, day) ∈ missing_dates then false
  else
    match fs (_get_filename path year month day hour reduced_set) with
    | some size => if size > 0 then false else true
    | none => true

/-- `_get_ecmwf_key(self)`, made explicit in the cursor state: returns the
key at the cursor and the new cursor.  Python's `self.keys[self.current_key]`
raises on an out-of-range index; the constructor guarantees at least one key
and the cursor always stays in range, so the `getD` default is never hit. -/
def _get_ecmwf_key (keys : List Key) (current_key : Nat) : Key × Nat :=
  let key := keys.getD current_key ("", "")
  let c := current_key + 1
  (key, if c ≥ keys.length then 0 else c)

/-- The ECMWF request dictionary built by `get_data`.  The Python dict key
`"class"` is spelled `cls` because `class` is a Lean keyword. -/
structure RequestParams where
  cls : String
  type : String
  dataset : String
  expver : String
  grid : String
  levtype : String
  origin : String
  format : String
  step : String
  date : String
  param : String
  time : String
  target : String
  area : String
deriving DecidableEq, Repr

/-- What one call of `get_data` does: either it prints the skip message and
returns, or it constructs an `ECMWFDataServer(url, key, email)` and calls
`server.retrieve(request)`. -/
inductive GetDataResult where
  | skipped (msg : String)
  | retrieved (url : String) (key : Key) (req : RequestParams)
deriving DecidableEq, Repr

/-- `get_data(self, year, month, day, hour, key, force, reduced_set)`. -/
def get_data (fs : FS) (path : String) (year month day hour : Nat) (key : Key)
    (force reduced_set : Bool) : GetDataResult :=
  if !(need_to_download fs path year month day hour reduced_set) && !force then
    .skipped ("Already downloaded "
      ++ _get_filename path year month day hour reduced_set
      ++ " not redownloading")
  else
    let variable_ids := if reduced_set then minimal_vars else all_vars
    .retrieved "https://api.ecmwf.int/v1" key
      { cls := "ti"
        type := "cf"
        dataset := "tigge"
        expver := "prod"
        grid := "0.5/0.5"
        levtype := "sfc"
        origin := "kwbc"
        format := "netcdf"
        step := step_list
        date := __format_date__ year month day
        param := variable_ids
        time := __format_time__ hour
        target := _get_filename path year month day hour reduced_set
        area := "14/-82/-57/-31" }

/-- One tuple appended to `args` in `bulk_download` (with the `self` slot
dropped): the task identity, the pre-assigned key, and the two flags. -/
structure Args where
  year : Nat
  month : Nat
  day : Nat
  hour : Nat
  key : Key
  force : Bool
  reduced_set : Bool
deriving DecidableEq, Repr

/-- The date projection of an `Args` tuple: (year, month, day, hour). -/
def taskTuple (a : Args) : Nat × Nat × Nat × Nat :=
  (a.year, a.month, a.day, a.hour)

/-- Fuel-indexed embedding of the `while current_date <= end_date` loop of
`bulk_download`, producing the `args` list and the final key cursor.
`buildArgs_eq` shows the fuel is always sufficient. -/
def buildArgsGo : Nat → List Key → Date → Date → Bool → Bool → Nat →
    List Args × Nat
  | 0, _, _, _, _, _, c => ([], c)
  | n + 1, keys, cur, e, force, reduced_set, c =>
    if dateLe cur e then
      let p0 := _get_ecmwf_key keys c
      let p6 := _get_ecmwf_key keys p0.2
      let p12 := _get_ecmwf_key keys p6.2
      let p18 := _get_ecmwf_key keys p12.2
      let rest := buildArgsGo n keys (nextDay cur) e force reduced_set p18.2
      (⟨cur.year, cur.month, cur.day, 0, p0.1, force, reduced_set⟩ ::
       ⟨cur.year, cur.month, cur.day, 6, p6.1, force, reduced_set⟩ ::
       ⟨cur.year, cur.month, cur.day, 12, p12.1, force, reduced_set⟩ ::
       ⟨cur.year, cur.month, cur.day, 18, p18.1, force, reduced_set⟩ ::
       rest.1, rest.2)
    else ([], c)

/-- The task/argument list built by `bulk_download`'s date loop, starting at
`cur`, ending at `e` inclusive, with initial key cursor `c`. -/
def buildArgs (keys : List Key) (cur e : Date) (force reduced_set : Bool)
    (c : Nat) : List Args × Nat :=
  buildArgsGo (dateFuel cur e) keys cur e force reduced_set c

/-- Fuel-indexed embedding of the date loop alone: the list of dates the loop
visits. -/
def enumDatesGo : Nat → Date → Date → List Date
  | 0, _, _ => []
  | n + 1, cur, e =>
    if dateLe cur e then cur :: enumDatesGo n (nextDay cur) e else []

/-- The list of dates visited by the loop from `cur` to `e` inclusive. -/
def enumDates (cur e : Date) : List Date :=
  enumDatesGo (dateFuel cur e) cur e

/-- `bulk_download(self, end_date, start_date, force, reduced_set)`, reduced
to the `args` list it dispatches (and the final key cursor).  `today` stands
for `date.today()`, `current_key` for `self.current_key` at call time.  Note
the source's parameter order: the end date comes first, the start date
second. -/
def bulk_download (keys : List Key) (current_key : Nat) (today : Date)
    (end_date start_date : Option Date) (force reduced_set : Bool) :
    List Args × Nat :=
  let e := end_date.getD today
  let s := start_date.getD Wildfire.start_date
  buildArgs keys s e force reduced_set current_key

/-- Modelled from the spec: the Bulk Scheduler contract exactly as §4.4 words
it, `bulkDownload(startDate?, endDate?, force, reducedSet)` — first optional
parameter the start of the range (defaulting to the archive epoch), second
the end (defaulting to the current date).  Used only to compare against the
source's `bulk_download`. -/
def bulk_download_spec (keys : List Key) (current_key : Nat) (today : Date)
    (start_date_arg end_date_arg : Option Date) (force reduced_set : Bool) :
    List Args × Nat :=
  let s := start_date_arg.getD Wildfire.start_date
  let e := end_date_arg.getD today
  buildArgs keys s e force reduced_set current_key

/-- The behaviour of the external `ECMWFDataServer.retrieve`: given the
request dictionary and the key the server was built with, either succeed or
raise an error. -/
def Client := RequestParams → Key → Except String Unit

/-- `get_data` with the external client's effect made explicit: a skip
returns without touching the client; a retrieval invokes the client and
propagates its failure as an exception from `get_data`. -/
def get_data_exec (client : Client) (fs : FS) (path : String)
    (year month day hour : Nat) (key : Key) (force reduced_set : Bool) :
    Except String GetDataResult :=
  match get_data fs path year month day hour key force reduced_set with
  | .skipped msg => .ok (.skipped msg)
  | .retrieved url k req =>
    match client req k with
    | .ok _ => .ok (.retrieved url k req)
    | .error e => .error e

/-- Python `str` of a Bool, as `print` shows it. -/
def pyBool (b : Bool) : String :=
  if b then "True" else "False"

/-- Python `str` of a `(api_key, email)` tuple of strings, as `print` shows
it (`\x27` is the single-quote character). -/
def keyStr (k : Key) : String :=
  "(\x27" ++ k.1 ++ "\x27, \x27" ++ k.2 ++ "\x27)"

/-- The message printed by `__get_data_wrapper__` when a task fails:
`'Problem with args: %s %s %s %s %s %s %s: %s'` applied to the task's
year, month, day, hour, key, force, reduced_set and the error detail. -/
def problemMsg (a : Args) (err : String) : String :=
  "Problem with args: " ++ toString a.year ++ " " ++ toString a.month ++ " "
    ++ toString a.day ++ " " ++ toString a.hour ++ " " ++ keyStr a.key ++ " "
    ++ pyBool a.force ++ " " ++ pyBool a.reduced_set ++ ": " ++ err

/-- The outcome of one worker: the task ran to completion (skipped or
downloaded), or it failed and the failure was logged. -/
inductive TaskOutcome where
  | completed (r : GetDataResult)
  | failure (log : String)
deriving DecidableEq, Repr

/-- `__get_data_wrapper__(args)`: calls `get_data` on the bundled arguments
inside `try/except`, so any exception is turned into a printed log line and
the wrapper itself returns normally (`Except.ok`) in every case. -/
def __get_data_wrapper__ (client : Client) (fs : FS) (path : String)
    (a : Args) : Except String TaskOutcome :=
  match get_data_exec client fs path a.year a.month a.day a.hour a.key
      a.force a.reduced_set with
  | .ok r => .ok (.completed r)
  | .error e => .ok (.failure (problemMsg a e))

/-- `worker_pool.map(__get_data_wrapper__, args, chunksize=1)`: every
argument tuple is processed by the wrapper, elementwise. -/
def run_bulk (client : Client) (fs : FS) (path : String) (args : List Args) :
    List (Except String TaskOutcome) :=
  args.map (__get_data_wrapper__ client fs path)

/-- The state built by a successful `__init__` (the manager lock is not
modelled; it is never used by the source). -/
structure WildfireTiggeDataRetriever where
  path : String
  keys : List Key
  current_key : Nat
deriving DecidableEq, Repr

/-- The constructor's normalisation of `data_path`: append a trailing slash
when missing. -/
def normalize_path (data_path : String) : String :=
  if data_path.endsWith "/" then data_path else data_path ++ "/"

/-- `__init__(self, data_path, keys)`; `isDir` is the filesystem's
`os.path.isdir` predicate.  `ValueError` is modelled as `Except.error` with
the source's message. -/
def init (isDir : String → Bool) (data_path : String) (keys : List Key) :
    Except String WildfireTiggeDataRetriever :=
  let p := normalize_path data_path
  if isDir p = false then .error "data_path must be a directory"
  else if keys.length < 1 then .error "Need to supply at least one ECMWF API key"
  else .ok ⟨p, keys, 0⟩

/-- A point update of the filesystem: the state after a file of size `size`
has been written at `p`. -/
def fsUpdate (fs : FS) (p : String) (size : Nat) : FS :=
  fun q => if q = p then some size else fs q

/-- Does a `get_data` result invoke the retrieval client? -/
def invokesClient : GetDataResult → Bool
  | .skipped _ => false
  | .retrieved _ _ _ => true

/-- The key cursor after `k` calls of `_get_ecmwf_key`, starting from
cursor `c`. -/
def cursorAfter (keys : List Key) (c : Nat) : Nat → Nat
  | 0 => c
  | k + 1 => (_get_ecmwf_key keys (cursorAfter keys c k)).2

/-- The key returned by the `k`-th call (0-based) of `_get_ecmwf_key`,
starting from cursor `c`. -/
def nthKey (keys : List Key) (c k : Nat) : Key :=
  (_get_ecmwf_key keys (cursorAfter keys c k)).1

lemma dateLe_false_of_fuel (cur e : Date) (h : dateFuel cur e = 0) :
    dateLe cur e = false := by
  cases hb : dateLe cur e with
  | false => rfl
  | true => exact absurd h (by have := dateFuel_pos hb; omega)

lemma enumDatesGo_fuel : ∀ n m : Nat, ∀ cur e : Date,
    dateFuel cur e ≤ n → dateFuel cur e ≤ m →
    enumDatesGo n cur e = enumDatesGo m cur e := by
  intro n
  induction n with
  | zero =>
    intro m cur e hn _
    have hguard := dateLe_false_of_fuel cur e (by omega)
    cases m with
    | zero => rfl
    | succ m => simp [enumDatesGo, hguard]
  | succ n ih =>
    intro m cur e hn hm
    cases m with
    | zero =>
      have hguard := dateLe_false_of_fuel cur e (by omega)
      simp [enumDatesGo, hguard]
    | succ m =>
      cases h : dateLe cur e with
      | false => simp [enumDatesGo, h]
      | true =>
        have hd := dateFuel_decr h
        simp only [enumDatesGo, h, if_true]
        rw [ih m (nextDay cur) e (by omega) (by omega)]

lemma buildArgsGo_fuel : ∀ n m : Nat, ∀ keys : List Key, ∀ cur e : Date,
    ∀ force reduced_set : Bool, ∀ c : Nat,
    dateFuel cur e ≤ n → dateFuel cur e ≤ m →
    buildArgsGo n keys cur e force reduced_set c =
      buildArgsGo m keys cur e force reduced_set c := by
  intro n
  induction n with
  | zero =>
    intro m keys cur e force reduced_set c hn _
    have hguard := dateLe_false_of_fuel cur e (by omega)
    cases m with
    | zero => rfl
    | succ m => simp [buildArgsGo, hguard]
  | succ n ih =>
    intro m keys cur e force reduced_set c hn hm
    cases m with
    | zero =>
      have hguard := dateLe_false_of_fuel cur e (by omega)
      simp [buildArgsGo, hguard]
    | succ m =>
      cases h : dateLe cur e with
      | false => simp [buildArgsGo, h]
      | true =>
        have hd := dateFuel_decr h
        simp only [buildArgsGo, h, if_true]
        rw [ih m keys (nextDay cur) e force reduced_set _ (by omega) (by omega)]

/-- The date loop's own unfolding equation: `enumDates` behaves exactly as
the `while current_date <= end_date` loop (the fuel never truncates it). -/
theorem enumDates_eq (cur e : Date) :
    enumDates cur e =
      if dateLe cur e then cur :: enumDates (nextDay cur) e else [] := by
  cases h : dateLe cur e with
  | false =>
    unfold enumDates
    cases hf : dateFuel cur e with
    | zero => simp [enumDatesGo, h]
    | succ n => simp [enumDatesGo, h]
  | true =>
    have h1 := dateFuel_pos h
    have hd := dateFuel_decr h
    obtain ⟨k, hk⟩ : ∃ k, dateFuel cur e = k + 1 :=
      ⟨dateFuel cur e - 1, by omega⟩
    unfold enumDates
    rw [hk]
    simp only [enumDatesGo, h, if_true]
    rw [enumDatesGo_fuel k (dateFuel (nextDay cur) e) (nextDay cur) e
      (by omega) le_rfl]

/-- The `args`-building loop's unfolding equation: `buildArgs` behaves
exactly as the source's loop body with its four appends and four
`_get_ecmwf_key` calls per date. -/
theorem buildArgs_eq (keys : List Key) (cur e : Date)
    (force reduced_set : Bool) (c : Nat) :
    buildArgs keys cur e force reduced_set c =
      if dateLe cur e then
        let p0 := _get_ecmwf_key keys c
        let p6 := _get_ecmwf_key keys p0.2
        let p12 := _get_ecmwf_key keys p6.2
        let p18 := _get_ecmwf_key keys p12.2
        let rest := buildArgs keys (nextDay cur) e force reduced_set p18.2
        (⟨cur.year, cur.month, cur.day, 0, p0.1, force, reduced_set⟩ ::
         ⟨cur.year, cur.month, cur.day, 6, p6.1, force, reduced_set⟩ ::
         ⟨cur.year, cur.month, cur.day, 12, p12.1, force, reduced_set⟩ ::
         ⟨cur.year, cur.month, cur.day, 18, p18.1, force, reduced_set⟩ ::
         rest.1, rest.2)
      else ([], c) := by
  cases h : dateLe cur e with
  | false =>
    unfold buildArgs
    cases hf : dateFuel cur e with
    | zero => simp [buildArgsGo, h]
    | succ n => simp [buildArgsGo, h]
  | true =>
    have h1 := dateFuel_pos h
    have hd := dateFuel_decr h
    obtain ⟨k, hk⟩ : ∃ k, dateFuel cur e = k + 1 :=
      ⟨dateFuel cur e - 1, by omega⟩
    unfold buildArgs
    rw [hk]
    simp only [buildArgsGo, h, if_true]
    rw [buildArgsGo_fuel k (dateFuel (nextDay cur) e) keys (nextDay cur) e
      force reduced_set _ (by omega) le_rfl]

lemma buildArgsGo_map_taskTuple : ∀ n : Nat, ∀ keys : List Key,
    ∀ cur e : Date, ∀ force reduced_set : Bool, ∀ c : Nat,
    ((buildArgsGo n keys cur e force reduced_set c).1).map taskTuple =
      (enumDatesGo n cur e).flatMap
        (fun d => [(d.year, d.month, d.day, 0), (d.year, d.month, d.day, 6),
                   (d.year, d.month, d.day, 12), (d.year, d.month, d.day, 18)]) := by
  intro n
  induction n with
  | zero => intro keys cur e force reduced_set c; simp [buildArgsGo, enumDatesGo]
  | succ n ih =>
    intro keys cur e force reduced_set c
    cases h : dateLe cur e with
    | false => simp [buildArgsGo, enumDatesGo, h]
    | true => simp [buildArgsGo, enumDatesGo, h, taskTuple, ih]

/-- Per date visited by the loop, and in the loop's date order, the four
hour-tasks 0, 6, 12, 18 are emitted in that order. -/
lemma buildArgs_map_taskTuple (keys : List Key) (cur e : Date)
    (force reduced_set : Bool) (c : Nat) :
    ((buildArgs keys cur e force reduced_set c).1).map taskTuple =
      (enumDates cur e).flatMap
        (fun d => [(d.year, d.month, d.day, 0), (d.year, d.month, d.day, 6),
                   (d.year, d.month, d.day, 12), (d.year, d.month, d.day, 18)]) :=
  buildArgsGo_map_taskTuple (dateFuel cur e) keys cur e force reduced_set c

lemma dateLt_nextDay (d : Date) : dateLt d (nextDay d) = true := by
  unfold nextDay
  split
  · simp [dateLt]
  · split
    · simp [dateLt]
    · simp [dateLt]

lemma enumDatesGo_head_eq (n : Nat) (cur e : Date) :
    enumDatesGo n cur e = [] ∨ (enumDatesGo n cur e).head? = some cur := by
  cases n with
  | zero => left; rfl
  | succ n =>
    cases h : dateLe cur e with
    | false => left; simp [enumDatesGo, h]
    | true => right; simp [enumDatesGo, h]

lemma enumDatesGo_chain : ∀ n : Nat, ∀ cur e : Date,
    List.Chain' (fun a b => dateLt a b = true) (enumDatesGo n cur e) := by
  intro n
  induction n with
  | zero => intro cur e; simp [enumDatesGo]
  | succ n ih =>
    intro cur e
    cases h : dateLe cur e with
    | false => simp [enumDatesGo, h]
    | true =>
      simp only [enumDatesGo, h, if_true]
      rw [List.chain'_cons']
      refine ⟨?_, ih (nextDay cur) e⟩
      intro y hy
      rcases enumDatesGo_head_eq n (nextDay cur) e with h0 | h0
      · rw [h0] at hy
        simp at hy
      · rw [h0] at hy
        simp only [Option.mem_def, Option.some.injEq] at hy
        rw [← hy]
        exact dateLt_nextDay cur

/-- The dates visited by the loop are strictly ascending. -/
lemma enumDates_chain (cur e : Date) :
    List.Chain' (fun a b => dateLt a b = true) (enumDates cur e) :=
  enumDatesGo_chain (dateFuel cur e) cur e

lemma get_ecmwf_key_cursor_mod {keys : List Key} {c : Nat}
    (h : c < keys.length) :
    (_get_ecmwf_key keys c).2 = (c + 1) % keys.length := by
  unfold _get_ecmwf_key
  simp only
  split
  · have he : c + 1 = keys.length := by omega
    rw [he, Nat.mod_self]
  · have hlt : c + 1 < keys.length := by omega
    rw [Nat.mod_eq_of_lt hlt]

lemma cursorAfter_mod (keys : List Key) (h1 : 1 ≤ keys.length) :
    ∀ k : Nat, cursorAfter keys 0 k = k % keys.length := by
  intro k
  induction k with
  | zero => simp [cursorAfter]
  | succ k ih =>
    have hlt : k % keys.length < keys.length := Nat.mod_lt _ (by omega)
    have e1 := Nat.mod_add_div k keys.length
    simp only [cursorAfter]
    rw [ih, get_ecmwf_key_cursor_mod hlt]
    conv_rhs => rw [show k + 1 = (k % keys.length + 1) +
      keys.length * (k / keys.length) from by omega]
    rw [Nat.add_mul_mod_self_left]

/-- Exactly when `need_to_download` answers `false`: the date is a missing
date, or the target file exists with positive size. -/
lemma need_to_download_false_iff (fs : FS) (path : String)
    (year month day hour : Nat) (reduced_set : Bool) :
    need_to_download fs path year month day hour reduced_set = false ↔
      ((year, month, day) ∈ missing_dates ∨
        ∃ size, fs (_get_filename path year month day hour reduced_set) =
          some size ∧ 0 < size) := by
  by_cases hm : (year, month, day) ∈ missing_dates
  · simp [need_to_download, hm]
  · cases hfs : fs (_get_filename path year month day hour reduced_set) with
    | none => simp [need_to_download, hm, hfs]
    | some size =>
      by_cases hs : size > 0
      · simp [need_to_download, hm, hfs, hs]
      · simp [need_to_download, hm, hfs, hs]

lemma step_list_eq : step_list =
    String.intercalate "/" (((List.range 41).map (fun i => 6 * i)).map toString) := by
  decide

lemma minimal_vars_eq : minimal_vars =
    String.intercalate "/" ([165, 166, 167, 168, 228228].map toString) := by
  decide

lemma all_vars_eq : all_vars = String.intercalate "/"
    ([59, 134, 136, 146, 147, 151, 165, 166, 167, 168, 172, 176, 177,
      179, 235, 228001, 228039, 228139, 228144, 228228].map toString) := by
  decide

/-- The `step` entry of the request a `get_data` call hands to the client
(empty for a skip). -/
def resultStep : GetDataResult → String
  | .skipped _ => ""
  | .retrieved _ _ req => req.step

/-- The `time` entry of the request a `get_data` call hands to the client
(empty for a skip). -/
def resultTime : GetDataResult → String
  | .skipped _ => ""
  | .retrieved _ _ req => req.time

/-- The `target` entry of the request a `get_data` call hands to the client
(empty for a skip). -/
def resultTarget : GetDataResult → String
  | .skipped _ => ""
  | .retrieved _ _ req => req.target

/-- C1: for every task (year, month, day, hour, variableSet),
`need_to_download` returns false if the date is in `missing_dates`
(regardless of the filesystem state); otherwise false if the computed target
path is a file of size > 0; and true in every other case (file absent, or
present with size 0). -/
theorem wildfire_claim_C1 (fs : FS) (path : String)
    (year month day hour : Nat) (reduced_set : Bool) :
    need_to_download fs path year month day hour reduced_set = false ↔
      ((year, month, day) ∈ missing_dates ∨
        ∃ size, fs (_get_filename path year month day hour reduced_set) =
          some size ∧ 0 < size) :=
  need_to_download_false_iff fs path year month day hour reduced_set

/-- C2: the task enumeration of `bulk_download` over the inclusive range
2007-03-05 .. 2007-03-06 yields exactly the 8 tasks (03-05,0), (03-05,6),
(03-05,12), (03-05,18), (03-06,0), (03-06,6), (03-06,12), (03-06,18) in
that order; in general it emits, for each date of the range in strictly
ascending order, the hours 0, 6, 12, 18 in that order. -/
theorem wildfire_claim_C2 :
    (((buildArgs [("key", "email")] ⟨2007, 3, 5⟩ ⟨2007, 3, 6⟩ false false 0).1).map
        taskTuple =
      [(2007, 3, 5, 0), (2007, 3, 5, 6), (2007, 3, 5, 12), (2007, 3, 5, 18),
       (2007, 3, 6, 0), (2007, 3, 6, 6), (2007, 3, 6, 12), (2007, 3, 6, 18)])
    ∧ (∀ (keys : List Key) (cur e : Date) (force reduced_set : Bool) (c : Nat),
        ((buildArgs keys cur e force reduced_set c).1).map taskTuple =
          (enumDates cur e).flatMap
            (fun d => [(d.year, d.month, d.day, 0), (d.year, d.month, d.day, 6),
                       (d.year, d.month, d.day, 12), (d.year, d.month, d.day, 18)]))
    ∧ (∀ cur e : Date,
        List.Chain' (fun a b => dateLt a b = true) (enumDates cur e)) :=
  ⟨by decide, buildArgs_map_taskTuple, enumDates_chain⟩

/-- C8: the target-path formatter is a pure function of the task; it returns
`path ++ YYYY-MM-DD ++ "T" ++ HH ++ "-wildfire" ++ (".nc" or "-reduced.nc")`
with the date zero-padded to ISO form and the hour zero-padded to two
digits, the `-reduced` suffix present exactly when the reduced (minimal)
variable set is selected; in particular (2016,10,24,0) maps to
`2016-10-24T00-wildfire.nc` resp. `2016-10-24T00-wildfire-reduced.nc`. -/
theorem wildfire_claim_C8 :
    (∀ (path : String) (year month day hour : Nat) (reduced_set : Bool),
      _get_filename path year month day hour reduced_set =
        path ++ __format_date__ year month day ++ "T" ++ pad2 hour
          ++ "-wildfire" ++ (if reduced_set then "-reduced.nc" else ".nc"))
    ∧ _get_filename "/base/" 2016 10 24 0 false =
        "/base/2016-10-24T00-wildfire.nc"
    ∧ _get_filename "/base/" 2016 10 24 0 true =
        "/base/2016-10-24T00-wildfire-reduced.nc"
    ∧ __format_date__ 2016 10 24 = "2016-10-24" := by
  refine ⟨?_, by decide, by decide, by decide⟩
  intro path year month day hour reduced_set
  cases reduced_set <;> rfl

/-- C9: construction fails fast — `init` raises when the (normalised)
data path is not an existing directory or when the key list is empty, and
succeeds (with cursor 0 and the normalised path) exactly when the directory
exists and at least one key is supplied. -/
theorem wildfire_claim_C9 (isDir : String → Bool) (data_path : String)
    (keys : List Key) :
    ((∃ r, init isDir data_path keys = .ok r) ↔
      (isDir (normalize_path data_path) = true ∧ 1 ≤ keys.length))
    ∧ (init isDir data_path keys =
        .ok ⟨normalize_path data_path, keys, 0⟩ ∨
       ∃ e, init isDir data_path keys = .error e) := by
  cases h : isDir (normalize_path data_path) with
  | false =>
    constructor
    · simp [init, h]
    · right
      exact ⟨"data_path must be a directory", by simp [init, h]⟩
  | true =>
    by_cases hk : keys.length < 1
    · constructor
      · simp [init, h, hk]
      · right
        exact ⟨"Need to supply at least one ECMWF API key", by simp [init, h, hk]⟩
    · constructor
      · simp [init, h, hk]
        omega
      · left
        simp [init, h, hk]

/-- C10: the hour domain {0, 6, 12, 18} is not enforced anywhere: for every
natural hour (e.g. 7 or 25) the filename formatter produces the path with
that hour zero-padded to two digits, `__format_time__` produces
`HH:00:00`, and `get_data` with `force` proceeds to build and hand over a
request carrying that hour unchanged. -/
theorem wildfire_claim_C10 :
    (∀ (path : String) (year month day hour : Nat) (reduced_set : Bool),
      _get_filename path year month day hour reduced_set =
        path ++ __format_date__ year month day ++ "T" ++ pad2 hour
          ++ "-wildfire" ++ (if reduced_set then "-reduced.nc" else ".nc"))
    ∧ (∀ hour : Nat, __format_time__ hour = pad2 hour ++ ":00:00")
    ∧ (∀ (fs : FS) (path : String) (year month day hour : Nat) (key : Key)
        (reduced_set : Bool),
        invokesClient (get_data fs path year month day hour key true reduced_set) =
          true)
    ∧ (∀ (fs : FS) (path : String) (year month day hour : Nat) (key : Key)
        (reduced_set : Bool),
        resultTime (get_data fs path year month day hour key true reduced_set) =
            pad2 hour ++ ":00:00" ∧
        resultTarget (get_data fs path year month day hour key true reduced_set) =
            _get_filename path year month day hour reduced_set)
    ∧ (∀ (fs : FS) (path : String) (year month day hour : Nat)
        (reduced_set : Bool),
        need_to_download fs path year month day hour reduced_set = false ↔
          ((year, month, day) ∈ missing_dates ∨
            ∃ size, fs (_get_filename path year month day hour reduced_set) =
              some size ∧ 0 < size))
    ∧ pad2 7 = "07" ∧ pad2 25 = "25"
    ∧ _get_filename "/base/" 2016 1 2 7 false = "/base/2016-01-02T07-wildfire.nc"
    ∧ _get_filename "/base/" 2016 1 2 25 false = "/base/2016-01-02T25-wildfire.nc" := by
  refine ⟨?_, fun _ => rfl, ?_, ?_, need_to_download_false_iff, by decide,
    by decide, by decide, by decide⟩
  · intro path year month day hour reduced_set
    cases reduced_set <;> rfl
  · intro fs path year month day hour key reduced_set
    simp [get_data, invokesClient]
  · intro fs path year month day hour key reduced_set
    constructor <;> simp [get_data, resultTime, resultTarget, __format_time__]

/-- C3: `get_data` invokes the retrieval client iff `force` is set or the
oracle says the download is needed; when `force` is unset and the oracle
says no, it returns the skip message without consulting the client at all;
and a second call right after a successful first retrieval (without
`force`) is a no-op skip. -/
theorem wildfire_claim_C3 :
    (∀ (fs : FS) (path : String) (year month day hour : Nat) (key : Key)
        (force reduced_set : Bool),
      invokesClient (get_data fs path year month day hour key force reduced_set) =
        (force || need_to_download fs path year month day hour reduced_set))
    ∧ (∀ (client : Client) (fs : FS) (path : String)
        (year month day hour : Nat) (key : Key) (reduced_set : Bool),
        need_to_download fs path year month day hour reduced_set = false →
        get_data_exec client fs path year month day hour key false reduced_set =
          .ok (.skipped ("Already downloaded "
            ++ _get_filename path year month day hour reduced_set
            ++ " not redownloading")))
    ∧ (∀ (fs : FS) (path : String) (year month day hour : Nat)
        (key key2 : Key) (reduced_set : Bool) (url : String) (k : Key)
        (req : RequestParams) (size : Nat),
        get_data fs path year month day hour key false reduced_set =
          .retrieved url k req →
        0 < size →
        get_data (fsUpdate fs req.target size) path year month day hour key2
            false reduced_set =
          .skipped ("Already downloaded "
            ++ _get_filename path year month day hour reduced_set
            ++ " not redownloading")) := by
  refine ⟨?_, ?_, ?_⟩
  · intro fs path year month day hour key force reduced_set
    cases hn : need_to_download fs path year month day hour reduced_set <;>
      cases force <;> simp [get_data, hn, invokesClient]
  · intro client fs path year month day hour key reduced_set hneed
    simp [get_data_exec, get_data, hneed]
  · intro fs path year month day hour key key2 reduced_set url k req size
      hret hsize
    have htarget : req.target =
        _get_filename path year month day hour reduced_set := by
      cases hn : need_to_download fs path year month day hour reduced_set with
      | false => simp [get_data, hn] at hret
      | true =>
        simp [get_data, hn] at hret
        rw [← hret.2.2]
    have hneed2 : need_to_download (fsUpdate fs req.target size) path year
        month day hour reduced_set = false := by
      rw [need_to_download_false_iff]
      right
      refine ⟨size, ?_, hsize⟩
      rw [htarget]
      simp [fsUpdate]
    simp [get_data, hneed2]

/-- C3 witness: a missing date is skipped without a client call, and a second
call right after a successful download of 2016-10-24 hour 0 is a no-op
skip. -/
theorem wildfire_claim_C3_witness :
    (get_data_exec (fun _ _ => .ok ()) (fun _ => none) "/data/" 2015 12 3 0
        ("k", "e") false false =
      .ok (.skipped ("Already downloaded "
        ++ _get_filename "/data/" 2015 12 3 0 false ++ " not redownloading")))
    ∧ (get_data (fsUpdate (fun _ => none)
          (_get_filename "/data/" 2016 10 24 0 false) 5) "/data/" 2016 10 24 0
          ("k2", "e2") false false =
        .skipped ("Already downloaded "
          ++ _get_filename "/data/" 2016 10 24 0 false
          ++ " not redownloading")) := by
  constructor
  · exact wildfire_claim_C3.2.1 (fun _ _ => .ok ()) (fun _ => none) "/data/"
      2015 12 3 0 ("k", "e") false (by decide)
  · exact wildfire_claim_C3.2.2 (fun _ => none) "/data/" 2016 10 24 0
      ("k", "e") ("k2", "e2") false "https://api.ecmwf.int/v1" ("k", "e")
      { cls := "ti", type := "cf", dataset := "tigge", expver := "prod",
        grid := "0.5/0.5", levtype := "sfc", origin := "kwbc",
        format := "netcdf", step := step_list,
        date := __format_date__ 2016 10 24, param := all_vars,
        time := __format_time__ 0,
        target := _get_filename "/data/" 2016 10 24 0 false,
        area := "14/-82/-57/-31" } 5 rfl (by decide)

/-- C4: `_get_ecmwf_key` returns the credential at the cursor and advances
the cursor by exactly one modulo the number of credentials, keeping it in
`[0, len)`; starting from cursor 0, the k-th call returns
`credentials[k mod n]`, so with [A,B,C] successive calls cycle
A,B,C,A,B,C,... deterministically. -/
theorem wildfire_claim_C4 :
    (∀ (keys : List Key) (c : Nat), c < keys.length →
      (_get_ecmwf_key keys c).1 = keys.getD c ("", "") ∧
      (_get_ecmwf_key keys c).2 = (c + 1) % keys.length ∧
      (_get_ecmwf_key keys c).2 < keys.length)
    ∧ (∀ keys : List Key, 1 ≤ keys.length → ∀ k : Nat,
        cursorAfter keys 0 k = k % keys.length ∧
        nthKey keys 0 k = keys.getD (k % keys.length) ("", "")) := by
  constructor
  · intro keys c h
    refine ⟨rfl, get_ecmwf_key_cursor_mod h, ?_⟩
    rw [get_ecmwf_key_cursor_mod h]
    exact Nat.mod_lt _ (by omega)
  · intro keys h1 k
    refine ⟨cursorAfter_mod keys h1 k, ?_⟩
    unfold nthKey
    rw [cursorAfter_mod keys h1 k]
    rfl

/-- C4 witness: with three credentials A, B, C, the 0th..5th calls return
A, B, C, A, B, C, and the cursor after one assignment from position 2 wraps
to 0 < 3. -/
theorem wildfire_claim_C4_witness :
    nthKey [("A", "a"), ("B", "b"), ("C", "c")] 0 0 = ("A", "a")
    ∧ nthKey [("A", "a"), ("B", "b"), ("C", "c")] 0 1 = ("B", "b")
    ∧ nthKey [("A", "a"), ("B", "b"), ("C", "c")] 0 2 = ("C", "c")
    ∧ nthKey [("A", "a"), ("B", "b"), ("C", "c")] 0 3 = ("A", "a")
    ∧ nthKey [("A", "a"), ("B", "b"), ("C", "c")] 0 4 = ("B", "b")
    ∧ nthKey [("A", "a"), ("B", "b"), ("C", "c")] 0 5 = ("C", "c")
    ∧ (_get_ecmwf_key [("A", "a"), ("B", "b"), ("C", "c")] 2).2 = 0 := by
  have h := wildfire_claim_C4.2 [("A", "a"), ("B", "b"), ("C", "c")] (by decide)
  have h2 := wildfire_claim_C4.1 [("A", "a"), ("B", "b"), ("C", "c")] 2 (by decide)
  exact ⟨(h 0).2.trans (by decide), (h 1).2.trans (by decide),
    (h 2).2.trans (by decide), (h 3).2.trans (by decide),
    (h 4).2.trans (by decide), (h 5).2.trans (by decide),
    h2.2.1.trans (by decide)⟩

/-- C5: the worker wrapper catches any failure raised by the retrieval
client during a task: the wrapper itself always returns normally; a client
error on a task that reached retrieval is turned into the logged line
carrying the task year, month, day, hour, key, force and reduced-set flags
plus the error detail; and the outcome of position i of a bulk run depends
only on the argument tuple at position i, so one task failing cannot
prevent any other dispatched task from running to completion. -/
theorem wildfire_claim_C5 :
    (∀ (client : Client) (fs : FS) (path : String) (a : Args),
      ∃ out, __get_data_wrapper__ client fs path a = .ok out)
    ∧ (∀ (client : Client) (fs : FS) (path : String) (a : Args)
        (url : String) (k : Key) (req : RequestParams) (err : String),
        get_data fs path a.year a.month a.day a.hour a.key a.force
            a.reduced_set = .retrieved url k req →
        client req k = .error err →
        __get_data_wrapper__ client fs path a =
          .ok (.failure (problemMsg a err)))
    ∧ (∀ (client : Client) (fs : FS) (path : String)
        (args1 args2 : List Args) (i : Nat),
        args1.get? i = args2.get? i →
        (run_bulk client fs path args1).get? i =
          (run_bulk client fs path args2).get? i) := by
  refine ⟨?_, ?_, ?_⟩
  · intro client fs path a
    cases h : get_data_exec client fs path a.year a.month a.day a.hour a.key
        a.force a.reduced_set with
    | ok r => exact ⟨.completed r, by simp [__get_data_wrapper__, h]⟩
    | error e =>
      exact ⟨.failure (problemMsg a e), by simp [__get_data_wrapper__, h]⟩
  · intro client fs path a url k req err hret herr
    simp [__get_data_wrapper__, get_data_exec, hret, herr]
  · intro client fs path args1 args2 i h
    rw [List.get?_eq_getElem?, List.get?_eq_getElem?] at h
    simp [run_bulk, List.get?_eq_getElem?, List.getElem?_map, h]

/-- C5 witness: with a client that always fails, the wrapper on the forced
task (2016,10,24,0) returns normally with the logged failure line. -/
theorem wildfire_claim_C5_witness :
    __get_data_wrapper__ (fun _ _ => .error "boom") (fun _ => none) "/data/"
        ⟨2016, 10, 24, 0, ("k", "e"), true, false⟩ =
      .ok (.failure (problemMsg ⟨2016, 10, 24, 0, ("k", "e"), true, false⟩
        "boom")) :=
  wildfire_claim_C5.2.1 (fun _ _ => .error "boom") (fun _ => none) "/data/"
    ⟨2016, 10, 24, 0, ("k", "e"), true, false⟩ "https://api.ecmwf.int/v1"
    ("k", "e")
    { cls := "ti", type := "cf", dataset := "tigge", expver := "prod",
      grid := "0.5/0.5", levtype := "sfc", origin := "kwbc",
      format := "netcdf", step := step_list,
      date := __format_date__ 2016 10 24, param := all_vars,
      time := __format_time__ 0,
      target := _get_filename "/data/" 2016 10 24 0 false,
      area := "14/-82/-57/-31" } "boom" rfl rfl

/-- C6 counterexample: the claim says the request carries a comma-joined
forecast step list; on the concrete task (2016,10,24,0, Full) the request's
`step` entry is the slash-joined list, not the comma-joined one. -/
theorem wildfire_claim_C6_counterexample :
    resultStep (get_data (fun _ => none) "/data/" 2016 10 24 0 ("k", "e")
        true false) ≠
      String.intercalate "," (((List.range 41).map (fun i => 6 * i)).map toString)
    ∧ resultStep (get_data (fun _ => none) "/data/" 2016 10 24 0 ("k", "e")
        true false) =
      String.intercalate "/" (((List.range 41).map (fun i => 6 * i)).map toString) := by
  exact ⟨by decide, by decide⟩

/-- C6 (amended: the forecast step list is slash-joined, like the parameter
list): every request handed to the client carries the slash-joined fixed
step list 0,6,...,240, the slash-joined parameter-ID list of the selected
variable set, the zero-padded ISO date, the `HH:00:00` time, and the
computed target path. -/
theorem wildfire_claim_C6 :
    ∀ (fs : FS) (path : String) (year month day hour : Nat) (key : Key)
      (force reduced_set : Bool) (url : String) (k : Key)
      (req : RequestParams),
      get_data fs path year month day hour key force reduced_set =
        .retrieved url k req →
      req.step =
          String.intercalate "/" (((List.range 41).map (fun i => 6 * i)).map toString)
        ∧ req.param = (if reduced_set then minimal_vars else all_vars)
        ∧ minimal_vars =
            String.intercalate "/" ([165, 166, 167, 168, 228228].map toString)
        ∧ all_vars = String.intercalate "/"
            ([59, 134, 136, 146, 147, 151, 165, 166, 167, 168, 172, 176, 177,
              179, 235, 228001, 228039, 228139, 228144, 228228].map toString)
        ∧ req.date = __format_date__ year month day
        ∧ req.time = __format_time__ hour
        ∧ req.target = _get_filename path year month day hour reduced_set := by
  intro fs path year month day hour key force reduced_set url k req hret
  rw [get_data] at hret
  split at hret
  · exact absurd hret (by simp)
  · simp only [GetDataResult.retrieved.injEq] at hret
    obtain ⟨_, _, h3⟩ := hret
    subst h3
    exact ⟨step_list_eq, rfl, minimal_vars_eq, all_vars_eq, rfl, rfl, rfl⟩

/-- The request built for the forced task (2016,10,24,0, Full) with base
path `/data/`. -/
def reqC6 : RequestParams :=
  { cls := "ti", type := "cf", dataset := "tigge", expver := "prod",
    grid := "0.5/0.5", levtype := "sfc", origin := "kwbc", format := "netcdf",
    step := step_list, date := __format_date__ 2016 10 24, param := all_vars,
    time := __format_time__ 0,
    target := _get_filename "/data/" 2016 10 24 0 false,
    area := "14/-82/-57/-31" }

/-- C6 witness: on the concrete forced task (2016,10,24,0, Full) the built
request's task-varying entries are as stated. -/
theorem wildfire_claim_C6_witness :
    reqC6.step =
      String.intercalate "/" (((List.range 41).map (fun i => 6 * i)).map toString)
    ∧ reqC6.param = all_vars
    ∧ reqC6.date = __format_date__ 2016 10 24
    ∧ reqC6.time = __format_time__ 0
    ∧ reqC6.target = _get_filename "/data/" 2016 10 24 0 false := by
  have h := wildfire_claim_C6 (fun _ => none) "/data/" 2016 10 24 0 ("k", "e")
    true false "https://api.ecmwf.int/v1" ("k", "e") reqC6 rfl
  exact ⟨h.1, h.2.1, h.2.2.2.2.1, h.2.2.2.2.2.1, h.2.2.2.2.2.2⟩

/-- C7 counterexample: the claim reads the first optional parameter of
`bulk_download` as the range's start date; with today = 2007-03-04 and the
single positional date 2007-03-05 the source produces 4 tasks (the date
acted as the END of the range), while the spec-worded signature would
produce none. -/
theorem wildfire_claim_C7_counterexample :
    ((bulk_download [("k", "e")] 0 ⟨2007, 3, 4⟩ (some ⟨2007, 3, 5⟩) none
        false false).1).length = 4
    ∧ ((bulk_download_spec [("k", "e")] 0 ⟨2007, 3, 4⟩ (some ⟨2007, 3, 5⟩) none
        false false).1).length = 0
    ∧ (bulk_download [("k", "e")] 0 ⟨2007, 3, 4⟩ (some ⟨2007, 3, 5⟩) none
        false false).1 ≠
      (bulk_download_spec [("k", "e")] 0 ⟨2007, 3, 4⟩ (some ⟨2007, 3, 5⟩) none
        false false).1 :=
  ⟨by decide, by decide, by decide⟩

/-- C7 (amended: the first optional parameter is the END date, defaulting to
the current date, and the second is the START date, defaulting to the
archive epoch 2007-03-05): `bulk_download` enumerates the inclusive range
from the resolved start to the resolved end. -/
theorem wildfire_claim_C7 :
    ∀ (keys : List Key) (current_key : Nat) (today : Date)
      (end_arg start_arg : Option Date) (force reduced_set : Bool),
      bulk_download keys current_key today end_arg start_arg force
          reduced_set =
        buildArgs keys (start_arg.getD Wildfire.start_date)
          (end_arg.getD today) force reduced_set current_key
      ∧ Wildfire.start_date = ⟨2007, 3, 5⟩
      ∧ ((bulk_download keys current_key today end_arg start_arg force
            reduced_set).1).map taskTuple =
          (enumDates (start_arg.getD Wildfire.start_date)
            (end_arg.getD today)).flatMap
            (fun d => [(d.year, d.month, d.day, 0), (d.year, d.month, d.day, 6),
                       (d.year, d.month, d.day, 12),
                       (d.year, d.month, d.day, 18)]) := by
  intro keys current_key today end_arg start_arg force reduced_set
  exact ⟨rfl, rfl,
    buildArgs_map_taskTuple keys _ _ force reduced_set current_key⟩

end Wildfire
